import Mathlib

/-!
Shallow embedding of `jsonv.py`, a recursive JSON schema validator.

Data and schema documents share one tree representation (`JValue`), the
parsed form of JSON.  Python floats are modelled with an integral payload
(the payload is never inspected except for truthiness and ordering against
a length).  The Python process-wide dictionary `references` is threaded
explicitly as a `Refs` association list; on an exception the partially
updated table is returned together with the error, mirroring the fact that
the Python global survives a raised `ValidationError`.

`re.match` is abstracted as a parameter `rm : String → String → Bool`
(`rm pat key` models `re.match(pat, key) is not None`): the validator only
ever consults the regex engine through this entry point.

Python-level failures that are not `ValidationError`s are modelled as
distinguished error values: `keyError` (a failing dict lookup: `typemap`,
`references`, `schema["$schema:elements"]`), `typeError` (`len()` of an
unsized value, an unhashable dict key, a non-string regex pattern),
`attrError` (`.get` called on a non-dict schema node) and `recursionError`
(the fuel bound, standing for Python's recursion limit).
-/

inductive JValue where
  | null
  | bool (b : Bool)
  | int (n : Int)
  | float (n : Int)
  | str (s : String)
  | arr (xs : List JValue)
  | obj (kvs : List (String × JValue))

/-- Errors raised during validation.  The first five are the
`ValidationError` kinds of the source; the rest are Python runtime errors
(`KeyError`, `TypeError`, `AttributeError`, `RecursionError`). -/
inductive Err where
  | typeMismatch
  | lengthViolation
  | keyPatternMismatch (key : String) (pat : String)
  | missingKey (key : String)
  | additionalKey (key : String)
  | keyError (key : String)
  | typeError
  | attrError
  | recursionError
  deriving DecidableEq, Repr

/-- The five data non-conformance outcomes, as opposed to schema-authoring
or engine-level failures. -/
def isDataError : Err → Bool
  | .typeMismatch => true
  | .lengthViolation => true
  | .keyPatternMismatch _ _ => true
  | .missingKey _ => true
  | .additionalKey _ => true
  | _ => false

/-- First-match lookup in a string-keyed association list, modelling
`d[k]` / `k in d` on a Python dict parsed from JSON (keys are unique). -/
def getEntry : List (String × JValue) → String → Option JValue
  | [], _ => none
  | (k0, v) :: rest, k => if k0 = k then some v else getEntry rest k

/-- `d.get(k, default)`. -/
def getD (kvs : List (String × JValue)) (k : String) (d : JValue) : JValue :=
  match getEntry kvs k with
  | some v => v
  | none => d

/-- Python truthiness of a JSON value. -/
def truthy : JValue → Bool
  | .null => false
  | .bool b => b
  | .int n => n != 0
  | .float n => n != 0
  | .str s => !(s = "")
  | .arr xs => !xs.isEmpty
  | .obj kvs => !kvs.isEmpty

/-- Truthiness of `d.get(k)` (default `None`). -/
def truthyGet (kvs : List (String × JValue)) (k : String) : Bool :=
  truthy (getD kvs k JValue.null)

/-- Whether a JSON value is hashable in Python (usable as a dict key).
Lists and dicts are unhashable; using one as a key raises `TypeError`. -/
def hashable : JValue → Bool
  | .arr _ => false
  | .obj _ => false
  | _ => true

/-- A scalar: neither an object nor an array (no structural recursion). -/
def pyScalar : JValue → Bool
  | .arr _ => false
  | .obj _ => false
  | _ => true

/-- Equality used for reference-table keys.  Only hashable (scalar) values
ever reach the table: the validator raises `typeError` on an unhashable
`$schema:id`/`$schema:ref` value before any table access, so composite
values may safely compare unequal here.  (Python's `True == 1` dict-key
aliasing is not reproduced; boolean and integer keys stay distinct.) -/
def jbeq : JValue → JValue → Bool
  | .null, .null => true
  | .bool a, .bool b => a = b
  | .int a, .int b => a = b
  | .float a, .float b => a = b
  | .str a, .str b => a = b
  | _, _ => false

/-- The process-wide `references` dictionary, threaded explicitly. -/
abbrev Refs := List (JValue × JValue)

/-- `references[k]`. -/
def getRef : Refs → JValue → Option JValue
  | [], _ => none
  | (k0, v) :: rest, k => if jbeq k0 k then some v else getRef rest k

/-- `references[k] = v`: overwrite the existing entry or append. -/
def setRef : Refs → JValue → JValue → Refs
  | [], k, v => [(k, v)]
  | (k0, v0) :: rest, k, v =>
      if jbeq k0 k then (k0, v) :: rest else (k0, v0) :: setRef rest k v

/-- Rendering of a dict key for an error payload. -/
def keyRepr : JValue → String
  | .str s => s
  | .int n => toString n
  | .float n => toString n
  | .bool b => toString b
  | .null => "None"
  | .arr _ => ""
  | .obj _ => ""

/-- Python's type classes relevant to `isinstance` checks. -/
inductive PyType where
  | pstr | pint | pfloat | pbool | plist | pdict | ptuple
  deriving DecidableEq

/-- `isinstance(v, t)`.  A Python `bool` is a subclass of `int`, so a
boolean satisfies the `pint` check; parsed JSON never yields tuples. -/
def isinstance (v : JValue) : PyType → Bool
  | .pstr => match v with | .str _ => true | _ => false
  | .pint => match v with | .int _ => true | .bool _ => true | _ => false
  | .pfloat => match v with | .float _ => true | _ => false
  | .pbool => match v with | .bool _ => true | _ => false
  | .plist => match v with | .arr _ => true | _ => false
  | .pdict => match v with | .obj _ => true | _ => false
  | .ptuple => false

/-- `isinstance(v, tuple-of-types)`. -/
def isinstanceAny (v : JValue) (ts : List PyType) : Bool :=
  ts.any (isinstance v)

/-- The `typemap` dict: type tag to `(oneof, noneof)` tuples. -/
def typemap : String → Option (List PyType × List PyType)
  | "string" => some ([.pstr], [.ptuple])
  | "int" => some ([.pint], [.pbool])
  | "float" => some ([.pfloat], [.ptuple])
  | "number" => some ([.pint, .pfloat], [.pbool])
  | "bool" => some ([.pbool], [.ptuple])
  | "array" => some ([.plist], [.ptuple])
  | "object" => some ([.pdict], [.ptuple])
  | _ => none

/-- `validate_type(obj, schema)`: skipped entirely when `$schema:type` is
absent or falsy; an unknown tag is a `typemap` lookup failure. -/
def validate_type (o : JValue) (s : List (String × JValue)) : Option Err :=
  match getEntry s "$schema:type" with
  | some t =>
      if truthy t then
        match t with
        | .str tag =>
            match typemap tag with
            | some (oneof, noneof) =>
                if !isinstanceAny o oneof || isinstanceAny o noneof then
                  some .typeMismatch
                else none
            | none => some (.keyError tag)
        | other => if hashable other then some (.keyError (keyRepr other)) else some .typeError
      else none
  | none => none

/-- `len(v)` where defined; `none` models the `TypeError` raised by `len`
on an unsized value (numbers, booleans, `None`). -/
def pyLen : JValue → Option Nat
  | .str s => some s.length
  | .arr xs => some xs.length
  | .obj kvs => some kvs.length
  | _ => none

/-- `l < m` for a length `l` and a JSON value `m`; `none` models the
`TypeError` of ordering an int against a non-number. -/
def numLt (l : Nat) : JValue → Option Bool
  | .int n => some ((l : Int) < n)
  | .float n => some ((l : Int) < n)
  | .bool b => some ((l : Int) < (if b then (1 : Int) else 0))
  | _ => none

/-- `validate_minlength(obj, schema)`: skipped when `$schema:minlength` is
absent or falsy. -/
def validate_minlength (o : JValue) (s : List (String × JValue)) : Option Err :=
  match getEntry s "$schema:minlength" with
  | some m =>
      if truthy m then
        match pyLen o with
        | none => some .typeError
        | some l =>
            match numLt l m with
            | none => some .typeError
            | some lt => if lt then some .lengthViolation else none
      else none
  | none => none

/-- `validate_name(schema, key)`: applies only when a key was supplied and
`$schema:regex` is truthy. -/
def validate_name (rm : String → String → Bool) (s : List (String × JValue))
    (key : Option String) : Option Err :=
  match key with
  | none => none
  | some k =>
      match getEntry s "$schema:regex" with
      | some p =>
          if truthy p then
            match p with
            | .str pat => if rm pat k then none else some (.keyPatternMismatch k pat)
            | _ => some .typeError
          else none
      | none => none

/-- `s.startswith(pre)`, computed on the character list of the string. -/
def strStartsWith (s pre : String) : Bool :=
  pre.data.isPrefixOf s.data

/-- `s[1:]`, computed on the character list of the string. -/
def strDropOne (s : String) : String :=
  String.mk (s.data.drop 1)

/-- The data key declared by a schema key: strip one leading `$` from a
`$$`-prefixed schema key (`skey[1:]`). -/
def schemaKeyToDataKey (skey : String) : String :=
  if strStartsWith skey "$$" then strDropOne skey else skey

/-- The schema key a data key is matched against: prepend one `$` when the
data key starts with `$`. -/
def dataKeyToSchemaKey (okey : String) : String :=
  if strStartsWith okey "$" then "$" ++ okey else okey

/-- First loop of `validate_object`: every declared (non-marker) schema key
must be present in data unless its node's `$schema:required` is falsy. -/
def validate_object_required (obj : List (String × JValue)) :
    List (String × JValue) → Option Err
  | [] => none
  | (skey, sval) :: rest =>
      if strStartsWith skey "$schema:" then validate_object_required obj rest
      else
        let okey := schemaKeyToDataKey skey
        if (getEntry obj okey).isNone then
          match sval with
          | .obj nkvs =>
              if truthy (getD nkvs "$schema:required" (.bool true)) then
                some (.missingKey okey)
              else validate_object_required obj rest
          | _ => some .attrError
        else validate_object_required obj rest

/-- The type of the recursive validator passed down to the loops (one
recursion level of `schema_validate`). -/
abbrev SV := JValue → JValue → Option String → Refs → Refs × Option Err

/-- Second loop of `validate_object`: every data key must either match a
declared schema key (recursion with NO reaching key, `key=None`) or be
covered by a truthy `$schema:any` fallback (recursion WITH the key). -/
def validate_object_entries (sv : SV) (s : List (String × JValue)) :
    List (String × JValue) → Refs → Refs × Option Err
  | [], refs => (refs, none)
  | (okey, oval) :: rest, refs =>
      let skey := dataKeyToSchemaKey okey
      match getEntry s skey with
      | some snode =>
          match sv oval snode none refs with
          | (refs2, none) => validate_object_entries sv s rest refs2
          | (refs2, some e) => (refs2, some e)
      | none =>
          if truthyGet s "$schema:any" then
            match getEntry s "$schema:any" with
            | some anyNode =>
                match sv oval anyNode (some okey) refs with
                | (refs2, none) => validate_object_entries sv s rest refs2
                | (refs2, some e) => (refs2, some e)
            | none => (refs, some .attrError)
          else (refs, some (.additionalKey okey))

/-- `validate_object(obj, schema)`. -/
def validate_object (sv : SV) (obj s : List (String × JValue)) (refs : Refs) :
    Refs × Option Err :=
  match validate_object_required obj s with
  | some e => (refs, some e)
  | none => validate_object_entries sv s obj refs

/-- Loop of `validate_array`: `schema["$schema:elements"]` is looked up per
element, so an empty array never triggers the `KeyError`. -/
def validate_array_elems (sv : SV) (s : List (String × JValue)) :
    List JValue → Refs → Refs × Option Err
  | [], refs => (refs, none)
  | x :: rest, refs =>
      match getEntry s "$schema:elements" with
      | none => (refs, some (.keyError "$schema:elements"))
      | some el =>
          match sv x el none refs with
          | (refs2, none) => validate_array_elems sv s rest refs2
          | (refs2, some e) => (refs2, some e)

/-- `validate_array(obj, schema)`. -/
def validate_array (sv : SV) (xs : List JValue) (s : List (String × JValue))
    (refs : Refs) : Refs × Option Err :=
  validate_array_elems sv s xs refs

/-- The `$schema:id` registration step: `references[schema["$schema:id"]] =
schema` when the id value is truthy; an unhashable id raises `TypeError`. -/
def registerId (refs : Refs) (s : List (String × JValue)) : Refs × Option Err :=
  match getEntry s "$schema:id" with
  | some i =>
      if truthy i then
        if hashable i then (setRef refs i (.obj s), none) else (refs, some .typeError)
      else (refs, none)
  | none => (refs, none)

/-- Body of `schema_validate` after the `$schema:ref` redirect was ruled
out: registration, the three checks in source order, then structural
recursion. -/
def schema_validate_main (rm : String → String → Bool) (sv : SV) (o : JValue)
    (s : List (String × JValue)) (key : Option String) (refs : Refs) :
    Refs × Option Err :=
  match registerId refs s with
  | (refs1, some e) => (refs1, some e)
  | (refs1, none) =>
      match validate_type o s with
      | some e => (refs1, some e)
      | none =>
          match validate_minlength o s with
          | some e => (refs1, some e)
          | none =>
              match validate_name rm s key with
              | some e => (refs1, some e)
              | none =>
                  match o with
                  | .obj okvs => validate_object sv okvs s refs1
                  | .arr xs => validate_array sv xs s refs1
                  | _ => (refs1, none)

/-- `schema_validate(obj, schema, key=None)`.  Fuel bounds the recursion
depth (Python's recursion limit); each nested `schema_validate` frame costs
one unit.  A truthy `$schema:ref` redirects to the registered node,
dropping the reaching key (the redirect passes `key=None`). -/
def schema_validate (rm : String → String → Bool) :
    Nat → JValue → JValue → Option String → Refs → Refs × Option Err
  | 0, _, _, _, refs => (refs, some .recursionError)
  | fuel + 1, o, schema, key, refs =>
      match schema with
      | .obj s =>
          match getEntry s "$schema:ref" with
          | some r =>
              if truthy r then
                if hashable r then
                  match getRef refs r with
                  | some node => schema_validate rm fuel o node none refs
                  | none => (refs, some (.keyError (keyRepr r)))
                else (refs, some .typeError)
              else
                schema_validate_main rm
                  (fun o2 s2 k2 r2 => schema_validate rm fuel o2 s2 k2 r2) o s key refs
          | none =>
              schema_validate_main rm
                (fun o2 s2 k2 r2 => schema_validate rm fuel o2 s2 k2 r2) o s key refs
      | _ => (refs, some .attrError)

/-- A well-formed reference-table update: a pair `(i, node)` written by the
`$schema:id` registration step, i.e. `node` is an object whose truthy,
hashable `$schema:id` value is `i`. -/
def Registration (p : JValue × JValue) : Prop :=
  ∃ s, p.2 = JValue.obj s ∧ getEntry s "$schema:id" = some p.1
    ∧ truthy p.1 = true ∧ hashable p.1 = true

/-- Apply a sequence of reference-table writes in order. -/
def applyRegs (refs : Refs) (l : List (JValue × JValue)) : Refs :=
  l.foldl (fun r p => setRef r p.1 p.2) refs

/-- A recursive validator only ever changes the reference table by a
sequence of `$schema:id` registrations. -/
def RegShape (sv : SV) : Prop :=
  ∀ (o s : JValue) (key : Option String) (refs : Refs),
    ∃ l, (∀ p ∈ l, Registration p) ∧ (sv o s key refs).1 = applyRegs refs l

/-! ## Theorems -/

/-- Claim C1 (counterexample): declaring schema key `$$foo` does NOT accept
data key `foo`: the matcher strips one `$`, so `$$foo` declares data key
`$foo`, and data `{"foo": 1}` fails with `MissingKey "$foo"` instead of
validating successfully. -/
theorem c1_counterexample :
    (schema_validate (fun _ _ => true) 2 (.obj [("foo", .int 1)])
      (.obj [("$$foo", .obj [])]) none []).2 = some (.missingKey "$foo") := rfl

/-- Claim C1 (amended): key-escaping symmetry with one `$` stripped.  A
schema key `$$foo` accepts exactly the data key `$foo` (data `foo` is
reported missing), and a data key `$bar` is matched only against schema key
`$$bar` (a schema key spelled `$bar` does not match it: the data key is
reported additional). -/
theorem c1_amended :
    ∀ (rm : String → String → Bool) (refs : Refs) (v : JValue), pyScalar v = true →
      schema_validate rm 2 (.obj [("$foo", v)]) (.obj [("$$foo", .obj [])]) none refs
        = (refs, none)
      ∧ (schema_validate rm 2 (.obj [("foo", v)]) (.obj [("$$foo", .obj [])]) none refs).2
        = some (.missingKey "$foo")
      ∧ schema_validate rm 2 (.obj [("$bar", v)]) (.obj [("$$bar", .obj [])]) none refs
        = (refs, none)
      ∧ (schema_validate rm 2 (.obj [("$bar", v)]) (.obj [("$bar", .obj [])]) none refs).2
        = some (.additionalKey "$bar") := by
  intro rm refs v hv
  cases v <;> first
    | exact ⟨rfl, rfl, rfl, rfl⟩
    | simp [pyScalar] at hv

/-- Claim C1 (witness): the amended statement evaluated at `v = 1`. -/
theorem c1_witness :
    pyScalar (.int 1) = true
    ∧ schema_validate (fun _ _ => true) 2 (.obj [("$foo", .int 1)])
        (.obj [("$$foo", .obj [])]) none [] = ([], none)
    ∧ (schema_validate (fun _ _ => true) 2 (.obj [("foo", .int 1)])
        (.obj [("$$foo", .obj [])]) none []).2 = some (.missingKey "$foo")
    ∧ schema_validate (fun _ _ => true) 2 (.obj [("$bar", .int 1)])
        (.obj [("$$bar", .obj [])]) none [] = ([], none)
    ∧ (schema_validate (fun _ _ => true) 2 (.obj [("$bar", .int 1)])
        (.obj [("$bar", .obj [])]) none []).2 = some (.additionalKey "$bar") :=
  ⟨rfl, (c1_amended (fun _ _ => true) [] (.int 1) rfl).1,
    (c1_amended (fun _ _ => true) [] (.int 1) rfl).2.1,
    (c1_amended (fun _ _ => true) [] (.int 1) rfl).2.2.1,
    (c1_amended (fun _ _ => true) [] (.int 1) rfl).2.2.2⟩

/-- Helper: on a non-reference schema node whose registration, type and
minlength checks pass, validating a scalar value reduces to the key-pattern
check alone. -/
theorem sv_scalar_main :
    ∀ (rm : String → String → Bool) (fuel : Nat) (v : JValue)
      (nkvs : List (String × JValue)) (key : Option String) (refs : Refs),
      truthyGet nkvs "$schema:ref" = false →
      (registerId refs nkvs).2 = none →
      validate_type v nkvs = none →
      validate_minlength v nkvs = none →
      pyScalar v = true →
      schema_validate rm (fuel + 1) v (.obj nkvs) key refs
        = ((registerId refs nkvs).1, validate_name rm nkvs key) := by
  intro rm fuel v nkvs key refs href hreg htype hmin hv
  have main : schema_validate_main rm
      (fun o2 s2 k2 r2 => schema_validate rm fuel o2 s2 k2 r2) v nkvs key refs
      = ((registerId refs nkvs).1, validate_name rm nkvs key) := by
    simp only [schema_validate_main]
    rcases hr2 : registerId refs nkvs with ⟨refs1, e2⟩
    rw [hr2] at hreg
    simp only at hreg
    subst hreg
    simp only [htype, hmin]
    rcases hn : validate_name rm nkvs key with _ | e
    · cases v <;> simp_all [pyScalar]
    · simp
  simp only [schema_validate]
  rcases h : getEntry nkvs "$schema:ref" with _ | r
  · exact main
  · have ht : truthy r = false := by
      have := href
      simp [truthyGet, getD, h] at this
      exact this
    simp only [ht, Bool.false_eq_true, if_false]
    exact main

/-- Claim C2 (counterexample): a key declared in the schema is validated
with `key=None`, so a `$schema:regex` on that declared node is never
applied: with a regex matcher that rejects everything, data `{"name":
"zzz"}` still validates against a schema declaring a regex for `name`,
contradicting the claimed iff. -/
theorem c2_counterexample :
    schema_validate (fun _ _ => false) 2 (.obj [("name", .str "zzz")])
      (.obj [("name", .obj [("$schema:type", .str "string"),
                            ("$schema:regex", .str "a")])]) none []
      = ([], none) := rfl

/-- Claim C2 (amended): the regex is never applied without a reaching key
(so never to the root document); an entry handled by a declared schema key
is validated with NO reaching key, so its node's regex is skipped and the
outcome is success whenever the other checks pass; an entry handled by the
`$schema:any` fallback receives its key, and `KeyPatternMismatch` is
reported iff the fallback node's regex does not match the key. -/
theorem c2_amended :
    (∀ (rm : String → String → Bool) (s : List (String × JValue)),
       validate_name rm s none = none)
    ∧ (∀ (rm : String → String → Bool) (fuel : Nat) (s : List (String × JValue))
         (k : String) (v : JValue) (nkvs : List (String × JValue)) (refs : Refs),
       getEntry s (dataKeyToSchemaKey k) = some (.obj nkvs) →
       truthyGet nkvs "$schema:ref" = false →
       (registerId refs nkvs).2 = none →
       validate_type v nkvs = none →
       validate_minlength v nkvs = none →
       pyScalar v = true →
       validate_object_entries (schema_validate rm (fuel + 1)) s [(k, v)] refs
         = ((registerId refs nkvs).1, none))
    ∧ (∀ (rm : String → String → Bool) (fuel : Nat) (s : List (String × JValue))
         (k : String) (v : JValue) (akvs : List (String × JValue)) (refs : Refs)
         (P : String),
       getEntry s (dataKeyToSchemaKey k) = none →
       truthyGet s "$schema:any" = true →
       getEntry s "$schema:any" = some (.obj akvs) →
       truthyGet akvs "$schema:ref" = false →
       (registerId refs akvs).2 = none →
       validate_type v akvs = none →
       validate_minlength v akvs = none →
       getEntry akvs "$schema:regex" = some (.str P) → P ≠ "" →
       pyScalar v = true →
       (validate_object_entries (schema_validate rm (fuel + 1)) s [(k, v)] refs).2
         = (if rm P k then none else some (.keyPatternMismatch k P))) := by
  refine ⟨fun rm s => rfl, ?_, ?_⟩
  · intro rm fuel s k v nkvs refs hk href hreg htype hmin hv
    simp only [validate_object_entries, hk]
    rw [sv_scalar_main rm fuel v nkvs none refs href hreg htype hmin hv]
    simp [validate_name, validate_object_entries]
  · intro rm fuel s k v akvs refs P hk hany hanode href hreg htype hmin hregex hp hv
    simp only [validate_object_entries, hk, hany, hanode, if_true]
    rw [sv_scalar_main rm fuel v akvs (some k) refs href hreg htype hmin hv]
    simp only [validate_name, hregex, truthy, hp]
    rcases hrm : rm P k with _ | _
    · simp [hrm]
    · simp [hrm, validate_object_entries]

/-- Claim C2 (witness): the amended statement at concrete inputs, with an
all-rejecting matcher: the declared key `name` still succeeds; the
`$schema:any`-handled key `b` fails with `KeyPatternMismatch "b" "a"`. -/
theorem c2_witness :
    getEntry [("name", JValue.obj [("$schema:regex", JValue.str "a")])]
      (dataKeyToSchemaKey "name") = some (.obj [("$schema:regex", JValue.str "a")])
    ∧ truthyGet [("$schema:regex", JValue.str "a")] "$schema:ref" = false
    ∧ (registerId [] [("$schema:regex", JValue.str "a")]).2 = none
    ∧ validate_type (.int 7) [("$schema:regex", JValue.str "a")] = none
    ∧ validate_minlength (.int 7) [("$schema:regex", JValue.str "a")] = none
    ∧ pyScalar (.int 7) = true
    ∧ validate_object_entries (schema_validate (fun _ _ => false) 1)
        [("name", JValue.obj [("$schema:regex", JValue.str "a")])]
        [("name", .int 7)] []
        = ((registerId [] [("$schema:regex", JValue.str "a")]).1, none)
    ∧ (validate_object_entries (schema_validate (fun _ _ => false) 1)
        [("$schema:any", JValue.obj [("$schema:regex", JValue.str "a")])]
        [("b", .int 7)] []).2 = some (.keyPatternMismatch "b" "a") := by
  refine ⟨rfl, rfl, rfl, rfl, rfl, rfl,
    c2_amended.2.1 (fun _ _ => false) 0
      [("name", JValue.obj [("$schema:regex", JValue.str "a")])] "name" (.int 7)
      [("$schema:regex", JValue.str "a")] [] rfl rfl rfl rfl rfl rfl, ?_⟩
  have h := c2_amended.2.2 (fun _ _ => false) 0
      [("$schema:any", JValue.obj [("$schema:regex", JValue.str "a")])] "b" (.int 7)
      [("$schema:regex", JValue.str "a")] [] "a" rfl rfl rfl rfl rfl rfl rfl rfl
      (by decide) rfl
  simpa using h

/-- Claim C4: scalar type checking.  For every recognized type tag, a
scalar value yields `TypeMismatch` iff its representation is outside the
tag's accept list or inside its exclusion list, and success otherwise; in
particular `[1,2,3]` passes an array-of-int schema while `[1,true]` fails
with `TypeMismatch` because booleans are excluded from `int`. -/
theorem c4_scalar_type_check :
    (∀ (rm : String → String → Bool) (fuel : Nat) (refs : Refs)
       (tag : String) (oneof noneof : List PyType) (v : JValue),
       typemap tag = some (oneof, noneof) → tag ≠ "" → pyScalar v = true →
       schema_validate rm (fuel + 1) v (.obj [("$schema:type", .str tag)]) none refs
         = (refs, if !isinstanceAny v oneof || isinstanceAny v noneof then
             some .typeMismatch else none))
    ∧ (∀ (rm : String → String → Bool) (refs : Refs),
       schema_validate rm 2 (.arr [.int 1, .int 2, .int 3])
         (.obj [("$schema:type", .str "array"),
                ("$schema:elements", .obj [("$schema:type", .str "int")])]) none refs
         = (refs, none))
    ∧ (∀ (rm : String → String → Bool) (refs : Refs),
       schema_validate rm 2 (.arr [.int 1, .bool true])
         (.obj [("$schema:type", .str "array"),
                ("$schema:elements", .obj [("$schema:type", .str "int")])]) none refs
         = (refs, some .typeMismatch)) := by
  refine ⟨?_, fun rm refs => rfl, fun rm refs => rfl⟩
  intro rm fuel refs tag oneof noneof v htm htag hv
  simp only [schema_validate, getEntry, schema_validate_main, registerId, validate_type,
    validate_minlength, validate_name, truthy, htm, htag, getD]
  simp only [reduceCtorEq, reduceIte, String.reduceEq, ite_false, ite_true]
  cases v <;> simp_all [pyScalar] <;> split <;> simp_all

/-- Claim C4 (witness): the general part evaluated at tag `int` and value
`true`: a boolean is inside the accept list (bool is a subclass of int) but
also inside the exclusion list, so the outcome is `TypeMismatch`. -/
theorem c4_witness :
    typemap "int" = some ([.pint], [.pbool]) ∧ ("int" : String) ≠ ""
    ∧ pyScalar (.bool true) = true
    ∧ schema_validate (fun _ _ => true) 1 (.bool true)
        (.obj [("$schema:type", .str "int")]) none []
        = ([], some .typeMismatch) := by
  refine ⟨rfl, by decide, rfl, ?_⟩
  have h := c4_scalar_type_check.1 (fun _ _ => true) 0 [] "int" [.pint] [.pbool]
    (.bool true) rfl (by decide) rfl
  simpa using h

/-- Claim C5: objects are closed by default.  If a data key's escaped form
matches no declared schema key and the schema has no truthy `$schema:any`,
then the entries scan, on reaching that key, fails with `AdditionalKey`
naming it; consequently any object validation whose data contains such a
key cannot succeed. -/
theorem c5_closed_by_default :
    ∀ (sv : SV) (s : List (String × JValue)) (k : String) (v : JValue),
      truthyGet s "$schema:any" = false →
      getEntry s (dataKeyToSchemaKey k) = none →
      (∀ (rest : List (String × JValue)) (refs : Refs),
         validate_object_entries sv s ((k, v) :: rest) refs
           = (refs, some (.additionalKey k)))
      ∧ (∀ (obj : List (String × JValue)) (refs : Refs),
         (k, v) ∈ obj → (validate_object_entries sv s obj refs).2 ≠ none)
      ∧ (∀ (obj : List (String × JValue)) (refs : Refs),
         (k, v) ∈ obj → (validate_object sv obj s refs).2 ≠ none) := by
  intro sv s k v hany hmatch
  have hscan : ∀ (obj : List (String × JValue)) (refs : Refs),
      (k, v) ∈ obj → (validate_object_entries sv s obj refs).2 ≠ none := by
    intro obj
    induction obj with
    | nil => intro refs hmem; cases hmem
    | cons p rest ih =>
      intro refs hmem
      obtain ⟨k2, v2⟩ := p
      cases hmem with
      | head =>
        simp only [validate_object_entries, hmatch, hany]
        simp
      | tail _ hmem =>
        simp only [validate_object_entries]
        rcases he : getEntry s (dataKeyToSchemaKey k2) with _ | snode
        · simp only [he, hany]
          simp
        · rcases hsv : sv v2 snode none refs with ⟨refs2, e2⟩
          simp only [he, hsv]
          cases e2 with
          | none => exact ih refs2 hmem
          | some e => simp
  refine ⟨?_, hscan, ?_⟩
  · intro rest refs
    simp only [validate_object_entries]
    rw [hmatch, hany]
    simp
  · intro obj refs hmem
    simp only [validate_object]
    rcases hreq : validate_object_required obj s with _ | e
    · exact hscan obj refs hmem
    · simp

/-- Claim C5 (witness): the statement evaluated on schema `{"a": {}}` and
data containing the undeclared key `extra`. -/
theorem c5_witness :
    truthyGet [("a", JValue.obj [])] "$schema:any" = false
    ∧ getEntry [("a", JValue.obj [])] (dataKeyToSchemaKey "extra") = none
    ∧ validate_object_entries (fun _ _ _ r => (r, none)) [("a", JValue.obj [])]
        [("extra", .int 1)] [] = ([], some (.additionalKey "extra"))
    ∧ (validate_object (fun _ _ _ r => (r, none))
        [("a", .obj []), ("extra", .int 1)] [("a", JValue.obj [])] []).2 ≠ none := by
  refine ⟨rfl, rfl,
    (c5_closed_by_default (fun _ _ _ r => (r, none)) [("a", JValue.obj [])] "extra" (.int 1)
      rfl rfl).1 [] [], ?_⟩
  exact (c5_closed_by_default (fun _ _ _ r => (r, none)) [("a", JValue.obj [])] "extra" (.int 1)
      rfl rfl).2.2 [("a", .obj []), ("extra", .int 1)] []
      (List.mem_cons_of_mem _ (List.mem_singleton.mpr rfl))

/-- Helper: if the required-keys scan succeeds, every declared non-marker
schema key whose node is an object with a truthy (or defaulted) required
flag has its data key present. -/
theorem validate_object_required_none_mem :
    ∀ (obj s : List (String × JValue)), validate_object_required obj s = none →
      ∀ (skey : String) (nkvs : List (String × JValue)),
        (skey, JValue.obj nkvs) ∈ s →
        strStartsWith skey "$schema:" = false →
        truthy (getD nkvs "$schema:required" (.bool true)) = true →
        (getEntry obj (schemaKeyToDataKey skey)).isNone = false := by
  intro obj s
  induction s with
  | nil => intro _ skey nkvs hmem; cases hmem
  | cons p rest ih =>
    intro h skey nkvs hmem hmark hreq
    obtain ⟨sk, sval⟩ := p
    cases hmem with
    | head =>
      simp only [validate_object_required, hmark, Bool.false_eq_true, if_false] at h
      by_contra hcon
      have hg : (getEntry obj (schemaKeyToDataKey skey)).isNone = true := by
        cases hgg : (getEntry obj (schemaKeyToDataKey skey)).isNone
        · exact absurd hgg hcon
        · rfl
      rw [hg] at h
      simp only [hreq, if_true] at h
      cases h
    | tail _ hmem =>
      by_cases hm : strStartsWith sk "$schema:" = true
      · simp only [validate_object_required, hm, if_true] at h
        exact ih h skey nkvs hmem hmark hreq
      · have hm2 : strStartsWith sk "$schema:" = false := by
          cases hm3 : strStartsWith sk "$schema:"
          · rfl
          · exact absurd hm3 hm
        simp only [validate_object_required, hm2, Bool.false_eq_true, if_false] at h
        rcases hgo : (getEntry obj (schemaKeyToDataKey sk)).isNone with _ | _
        · rw [hgo] at h
          simp only [Bool.false_eq_true, if_false] at h
          exact ih h skey nkvs hmem hmark hreq
        · rw [hgo] at h
          simp only [if_true] at h
          cases sval with
          | obj nkvs0 =>
            simp only at h
            rcases hrq : truthy (getD nkvs0 "$schema:required" (.bool true)) with _ | _
            · rw [hrq] at h
              simp only [Bool.false_eq_true, if_false] at h
              exact ih h skey nkvs hmem hmark hreq
            · rw [hrq] at h
              simp only [if_true] at h
              cases h
          | null => simp at h
          | bool b => simp at h
          | int n => simp at h
          | float n => simp at h
          | str s2 => simp at h
          | arr xs => simp at h

/-- Claim C6 (counterexample): `$schema:required` is interpreted by Python
truthiness, not by comparison with `false`: a node setting it to `0` (which
is not `false`) accepts absence, while the claim demands a `MissingKey`
failure. -/
theorem c6_counterexample :
    schema_validate (fun _ _ => true) 2 (.obj [])
      (.obj [("a", .obj [("$schema:required", .int 0)])]) none [] = ([], none) := rfl

/-- Claim C6 (amended): required keys default to true.  A declared
non-marker schema key whose data key is absent fails with `MissingKey`
naming the (escaped) key whenever the node's `$schema:required` is truthy
or absent; a falsy `$schema:required` (false, 0, empty, null) makes absence
acceptable (the entry imposes nothing). -/
theorem c6_amended :
    ∀ (skey : String) (nkvs obj rest : List (String × JValue)),
      strStartsWith skey "$schema:" = false →
      getEntry obj (schemaKeyToDataKey skey) = none →
      (truthy (getD nkvs "$schema:required" (.bool true)) = true →
        validate_object_required obj ((skey, .obj nkvs) :: rest)
          = some (.missingKey (schemaKeyToDataKey skey)))
      ∧ (truthy (getD nkvs "$schema:required" (.bool true)) = false →
        validate_object_required obj ((skey, .obj nkvs) :: rest)
          = validate_object_required obj rest)
      ∧ (∀ (sv : SV) (s : List (String × JValue)) (refs : Refs),
          (skey, JValue.obj nkvs) ∈ s →
          truthy (getD nkvs "$schema:required" (.bool true)) = true →
          (validate_object sv obj s refs).2 ≠ none) := by
  intro skey nkvs obj rest hmark habs
  have hgo : (getEntry obj (schemaKeyToDataKey skey)).isNone = true := by
    rw [habs]; rfl
  refine ⟨?_, ?_, ?_⟩
  · intro hreq
    simp only [validate_object_required, hmark, Bool.false_eq_true, if_false, hgo, if_true]
    simp only [hreq, if_true]
  · intro hreq
    simp only [validate_object_required, hmark, Bool.false_eq_true, if_false, hgo, if_true]
    simp only [hreq, Bool.false_eq_true, if_false]
  · intro sv s refs hmem hreq
    intro hc
    simp only [validate_object] at hc
    rcases hr : validate_object_required obj s with _ | e
    · have := validate_object_required_none_mem obj s hr skey nkvs hmem hmark hreq
      rw [hgo] at this
      cases this
    · rw [hr] at hc
      simp at hc

/-- Claim C6 (witness): the amended statement at key `a`: default required
gives `MissingKey "a"`; explicit `false` accepts absence; full object
validation cannot succeed when the required key is absent. -/
theorem c6_witness :
    strStartsWith "a" "$schema:" = false
    ∧ getEntry [] (schemaKeyToDataKey "a") = none
    ∧ truthy (getD [] "$schema:required" (.bool true)) = true
    ∧ validate_object_required [] [("a", JValue.obj [])] = some (.missingKey "a")
    ∧ truthy (getD [("$schema:required", JValue.bool false)] "$schema:required" (.bool true)) = false
    ∧ validate_object_required []
        [("a", JValue.obj [("$schema:required", JValue.bool false)])] = none
    ∧ (validate_object (fun _ _ _ r => (r, none)) [] [("a", JValue.obj [])] []).2 ≠ none := by
  refine ⟨rfl, rfl, rfl, ?_, rfl, ?_, ?_⟩
  · have h := (c6_amended "a" [] [] [] rfl rfl).1 rfl
    simpa using h
  · have h := (c6_amended "a" [("$schema:required", JValue.bool false)] [] [] rfl rfl).2.1 rfl
    simpa using h
  · exact (c6_amended "a" [] [] [] rfl rfl).2.2 (fun _ _ _ r => (r, none))
      [("a", JValue.obj [])] [] (List.mem_singleton.mpr rfl) rfl

/-- Claim C8 (counterexample): a missing `$schema:type` on a non-reference
node does NOT produce a failure of any kind: the type check is silently
skipped (`schema.get` is falsy) and validation of `5` against `{}`
succeeds, while the claim requires a schema-defect failure. -/
theorem c8_counterexample :
    schema_validate (fun _ _ => true) 1 (.int 5) (.obj []) none [] = ([], none) := rfl

/-- Claim C8 (amended): an unknown type tag, an unresolved `$schema:ref`
(including a ref to an id not yet visited, scenario D), and an array schema
lacking `$schema:elements` on non-empty data all fail with a `KeyError`
distinct from the five data-validation error kinds; a missing
`$schema:type`, however, is silently skipped rather than reported. -/
theorem c8_amended :
    (∀ (rm : String → String → Bool) (fuel : Nat) (o : JValue) (key : Option String)
       (refs : Refs) (tag : String),
       typemap tag = none → tag ≠ "" →
       (schema_validate rm (fuel + 1) o (.obj [("$schema:type", .str tag)]) key refs).2
         = some (.keyError tag))
    ∧ (∀ (o : JValue) (s : List (String × JValue)),
       getEntry s "$schema:type" = none → validate_type o s = none)
    ∧ (∀ (rm : String → String → Bool) (fuel : Nat) (o : JValue) (key : Option String)
       (refs : Refs) (R : String),
       getRef refs (.str R) = none → R ≠ "" →
       (schema_validate rm (fuel + 1) o (.obj [("$schema:ref", .str R)]) key refs).2
         = some (.keyError R))
    ∧ (∀ (rm : String → String → Bool) (fuel : Nat) (x : JValue) (rest : List JValue)
       (key : Option String) (refs : Refs),
       (schema_validate rm (fuel + 1) (.arr (x :: rest))
         (.obj [("$schema:type", .str "array")]) key refs).2
         = some (.keyError "$schema:elements"))
    ∧ (∀ k, isDataError (.keyError k) = false)
    ∧ (∀ (rm : String → String → Bool),
       schema_validate rm 5
         (.obj [("x", .str "s"), ("y", .str "t")])
         (.obj [("x", .obj [("$schema:id", .str "Node"), ("$schema:type", .str "string")]),
                ("y", .obj [("$schema:ref", .str "Node")])]) none []
         = ([(.str "Node", .obj [("$schema:id", .str "Node"), ("$schema:type", .str "string")])], none))
    ∧ (∀ (rm : String → String → Bool),
       (schema_validate rm 5
         (.obj [("y", .str "t"), ("x", .str "s")])
         (.obj [("x", .obj [("$schema:id", .str "Node"), ("$schema:type", .str "string")]),
                ("y", .obj [("$schema:ref", .str "Node")])]) none []).2
         = some (.keyError "Node")) := by
  refine ⟨?_, ?_, ?_, ?_, fun k => rfl, fun rm => rfl, fun rm => rfl⟩
  · intro rm fuel o key refs tag htm htag
    simp only [schema_validate, getEntry, schema_validate_main, registerId, validate_type,
      validate_minlength, validate_name, truthy, htm, htag, getD]
    simp_all
  · intro o s h
    simp [validate_type, h]
  · intro rm fuel o key refs R href htag
    simp only [schema_validate, getEntry, truthy, hashable, keyRepr, href, htag]
    simp_all
  · intro rm fuel x rest key refs
    simp only [schema_validate, getEntry, schema_validate_main, registerId, validate_type,
      validate_minlength, validate_name, validate_array, validate_array_elems, truthy,
      typemap, isinstanceAny, isinstance, getD]
    cases key <;> simp [isinstance]

/-- Claim C8 (witness): the amended statement at concrete defective
schemas: tag `datetime` and a never-registered ref `Node`. -/
theorem c8_witness :
    typemap "datetime" = none ∧ ("datetime" : String) ≠ "" ∧
    (schema_validate (fun _ _ => true) 1 (.int 5)
      (.obj [("$schema:type", .str "datetime")]) none []).2 = some (.keyError "datetime") ∧
    getRef [] (.str "Node") = none ∧ ("Node" : String) ≠ "" ∧
    (schema_validate (fun _ _ => true) 1 (.int 5)
      (.obj [("$schema:ref", .str "Node")]) none []).2 = some (.keyError "Node") :=
  ⟨rfl, by decide, (c8_amended.1 (fun _ _ => true) 0 (.int 5) none [] "datetime" rfl (by decide)),
   rfl, by decide, (c8_amended.2.2.1 (fun _ _ => true) 0 (.int 5) none [] "Node" rfl (by decide))⟩

/-- Claim C10: a truthy `$schema:minlength` on a node whose type check
admits an unsized value makes validation raise a Python `TypeError` (from
`len()`), which is not one of the validation error kinds. -/
theorem c10_minlength_unsized_typeerror :
    ∀ (rm : String → String → Bool) (fuel : Nat) (o : JValue)
      (s : List (String × JValue)) (key : Option String) (refs : Refs) (n : Int),
      truthyGet s "$schema:ref" = false →
      (registerId refs s).2 = none →
      validate_type o s = none →
      getEntry s "$schema:minlength" = some (.int n) → n ≠ 0 →
      pyLen o = none →
      (schema_validate rm (fuel + 1) o (.obj s) key refs).2 = some .typeError
      ∧ isDataError .typeError = false := by
  intro rm fuel o s key refs n href hreg htype hmin hn hlen
  refine ⟨?_, rfl⟩
  simp only [schema_validate]
  rcases h : getEntry s "$schema:ref" with _ | r
  · rcases hr2 : registerId refs s with ⟨refs1, e2⟩
    rw [hr2] at hreg
    simp only at hreg
    subst hreg
    simp [schema_validate_main, hr2, htype, validate_minlength, hmin, truthy, hn, hlen]
  · have ht : truthy r = false := by
      have := href
      simp [truthyGet, getD, h] at this
      exact this
    simp only [ht, if_false]
    rcases hr2 : registerId refs s with ⟨refs1, e2⟩
    rw [hr2] at hreg
    simp only at hreg
    subst hreg
    simp [schema_validate_main, hr2, htype, validate_minlength, hmin, truthy, hn, hlen]

/-- Claim C10 (witness): type `int`, minlength 1, value `5`: the type check
passes, then `len(5)` raises `TypeError`. -/
theorem c10_witness :
    truthyGet [("$schema:type", JValue.str "int"), ("$schema:minlength", JValue.int 1)] "$schema:ref" = false
    ∧ (registerId [] [("$schema:type", JValue.str "int"), ("$schema:minlength", JValue.int 1)]).2 = none
    ∧ validate_type (.int 5) [("$schema:type", JValue.str "int"), ("$schema:minlength", JValue.int 1)] = none
    ∧ getEntry [("$schema:type", JValue.str "int"), ("$schema:minlength", JValue.int 1)] "$schema:minlength" = some (.int 1)
    ∧ (1 : Int) ≠ 0
    ∧ pyLen (.int 5) = none
    ∧ (schema_validate (fun _ _ => true) 1 (.int 5)
        (.obj [("$schema:type", JValue.str "int"), ("$schema:minlength", JValue.int 1)]) none []).2 = some .typeError
    ∧ isDataError .typeError = false :=
  ⟨rfl, rfl, rfl, rfl, by decide, rfl,
    (c10_minlength_unsized_typeerror (fun _ _ => true) 0 (.int 5)
      [("$schema:type", JValue.str "int"), ("$schema:minlength", JValue.int 1)] none [] 1
      rfl rfl rfl rfl (by decide) rfl).1,
    (c10_minlength_unsized_typeerror (fun _ _ => true) 0 (.int 5)
      [("$schema:type", JValue.str "int"), ("$schema:minlength", JValue.int 1)] none [] 1
      rfl rfl rfl rfl (by decide) rfl).2⟩

/-- Helper: table writes compose over list append. -/
theorem applyRegs_append (refs : Refs) (l1 l2 : List (JValue × JValue)) :
    applyRegs refs (l1 ++ l2) = applyRegs (applyRegs refs l1) l2 := by
  simp [applyRegs, List.foldl_append]

/-- Helper: the registration step performs only `Registration`-shaped writes. -/
theorem registerId_shape (refs : Refs) (s : List (String × JValue)) :
    ∃ l, (∀ p ∈ l, Registration p) ∧ (registerId refs s).1 = applyRegs refs l := by
  rcases hg : getEntry s "$schema:id" with _ | i
  · exact ⟨[], by simp, by simp [registerId, hg, applyRegs]⟩
  · rcases ht : truthy i with _ | _
    · exact ⟨[], by simp, by simp [registerId, hg, ht, applyRegs]⟩
    · rcases hh : hashable i with _ | _
      · exact ⟨[], by simp, by simp [registerId, hg, ht, hh, applyRegs]⟩
      · refine ⟨[(i, JValue.obj s)], ?_, by simp [registerId, hg, ht, hh, applyRegs]⟩
        intro p hp
        rw [List.mem_singleton] at hp
        subst hp
        exact ⟨s, rfl, hg, ht, hh⟩

/-- Helper: the object-entries scan only performs registration writes. -/
theorem validate_object_entries_shape (sv : SV) (h : RegShape sv)
    (s : List (String × JValue)) :
    ∀ (l : List (String × JValue)) (refs : Refs),
      ∃ L, (∀ p ∈ L, Registration p)
        ∧ (validate_object_entries sv s l refs).1 = applyRegs refs L := by
  intro l
  induction l with
  | nil => exact fun refs => ⟨[], by simp, rfl⟩
  | cons p rest ih =>
    intro refs
    obtain ⟨k, v⟩ := p
    rcases he : getEntry s (dataKeyToSchemaKey k) with _ | snode
    · rcases hany : truthyGet s "$schema:any" with _ | _
      · exact ⟨[], by simp, by simp [validate_object_entries, he, hany, applyRegs]⟩
      · rcases hanode : getEntry s "$schema:any" with _ | anyNode
        · exact ⟨[], by simp, by simp [validate_object_entries, he, hany, hanode, applyRegs]⟩
        · obtain ⟨l1, hl1, hr1⟩ := h v anyNode (some k) refs
          rcases hsv : sv v anyNode (some k) refs with ⟨refs2, e2⟩
          rw [hsv] at hr1
          simp only at hr1
          cases e2 with
          | none =>
            obtain ⟨l2, hl2, hr2⟩ := ih refs2
            refine ⟨l1 ++ l2, ?_, ?_⟩
            · intro p hp
              rcases List.mem_append.mp hp with hp | hp
              · exact hl1 p hp
              · exact hl2 p hp
            · simp only [validate_object_entries, he, hany, hanode, hsv, if_true,
                applyRegs_append]
              rw [hr2, hr1]
          | some e =>
            refine ⟨l1, hl1, ?_⟩
            simp only [validate_object_entries, he, hany, hanode, hsv, if_true]
            exact hr1
    · obtain ⟨l1, hl1, hr1⟩ := h v snode none refs
      rcases hsv : sv v snode none refs with ⟨refs2, e2⟩
      rw [hsv] at hr1
      simp only at hr1
      cases e2 with
      | none =>
        obtain ⟨l2, hl2, hr2⟩ := ih refs2
        refine ⟨l1 ++ l2, ?_, ?_⟩
        · intro p hp
          rcases List.mem_append.mp hp with hp | hp
          · exact hl1 p hp
          · exact hl2 p hp
        · simp only [validate_object_entries, he, hsv, applyRegs_append]
          rw [hr2, hr1]
      | some e =>
        refine ⟨l1, hl1, ?_⟩
        simp only [validate_object_entries, he, hsv]
        exact hr1

/-- Helper: the array-elements scan only performs registration writes. -/
theorem validate_array_elems_shape (sv : SV) (h : RegShape sv)
    (s : List (String × JValue)) :
    ∀ (l : List JValue) (refs : Refs),
      ∃ L, (∀ p ∈ L, Registration p)
        ∧ (validate_array_elems sv s l refs).1 = applyRegs refs L := by
  intro l
  induction l with
  | nil => exact fun refs => ⟨[], by simp, rfl⟩
  | cons x rest ih =>
    intro refs
    rcases he : getEntry s "$schema:elements" with _ | el
    · exact ⟨[], by simp, by simp [validate_array_elems, he, applyRegs]⟩
    · obtain ⟨l1, hl1, hr1⟩ := h x el none refs
      rcases hsv : sv x el none refs with ⟨refs2, e2⟩
      rw [hsv] at hr1
      simp only at hr1
      cases e2 with
      | none =>
        obtain ⟨l2, hl2, hr2⟩ := ih refs2
        refine ⟨l1 ++ l2, ?_, ?_⟩
        · intro p hp
          rcases List.mem_append.mp hp with hp | hp
          · exact hl1 p hp
          · exact hl2 p hp
        · simp only [validate_array_elems, he, hsv, applyRegs_append]
          rw [hr2, hr1]
      | some e =>
        refine ⟨l1, hl1, ?_⟩
        simp only [validate_array_elems, he, hsv]
        exact hr1

/-- Helper: object validation only performs registration writes. -/
theorem validate_object_shape (sv : SV) (h : RegShape sv)
    (obj s : List (String × JValue)) (refs : Refs) :
    ∃ L, (∀ p ∈ L, Registration p)
      ∧ (validate_object sv obj s refs).1 = applyRegs refs L := by
  rcases hr : validate_object_required obj s with _ | e
  · obtain ⟨L, hL, hres⟩ := validate_object_entries_shape sv h s obj refs
    exact ⟨L, hL, by simp only [validate_object, hr]; exact hres⟩
  · exact ⟨[], by simp, by simp [validate_object, hr, applyRegs]⟩

/-- Helper: the post-redirect body only performs registration writes. -/
theorem schema_validate_main_shape (rm : String → String → Bool) (sv : SV)
    (h : RegShape sv) (o : JValue) (s : List (String × JValue))
    (key : Option String) (refs : Refs) :
    ∃ L, (∀ p ∈ L, Registration p)
      ∧ (schema_validate_main rm sv o s key refs).1 = applyRegs refs L := by
  obtain ⟨l0, hl0, hr0⟩ := registerId_shape refs s
  rcases hreg : registerId refs s with ⟨refs1, e1⟩
  rw [hreg] at hr0
  simp only at hr0
  cases e1 with
  | some e => exact ⟨l0, hl0, by simp only [schema_validate_main, hreg]; exact hr0⟩
  | none =>
    have step : ∀ (res : Refs × Option Err),
        (∃ L1, (∀ p ∈ L1, Registration p) ∧ res.1 = applyRegs refs1 L1) →
        ∃ L, (∀ p ∈ L, Registration p) ∧ res.1 = applyRegs refs L := by
      rintro res ⟨L1, hL1, hres⟩
      refine ⟨l0 ++ L1, ?_, ?_⟩
      · intro p hp
        rcases List.mem_append.mp hp with hp | hp
        · exact hl0 p hp
        · exact hL1 p hp
      · rw [applyRegs_append, ← hr0]
        exact hres
    rcases htype : validate_type o s with _ | e
    · rcases hmin : validate_minlength o s with _ | e
      · rcases hname : validate_name rm s key with _ | e
        · cases o with
          | obj okvs =>
            refine step _ ?_
            obtain ⟨L1, hL1, hres⟩ := validate_object_shape sv h okvs s refs1
            exact ⟨L1, hL1, by
              simp only [schema_validate_main, hreg, htype, hmin, hname]
              exact hres⟩
          | arr xs =>
            refine step _ ?_
            obtain ⟨L1, hL1, hres⟩ :=
              validate_array_elems_shape sv h s xs refs1
            exact ⟨L1, hL1, by
              simp only [schema_validate_main, hreg, htype, hmin, hname, validate_array]
              exact hres⟩
          | null => exact ⟨l0, hl0, by
              simp only [schema_validate_main, hreg, htype, hmin, hname]; exact hr0⟩
          | bool b => exact ⟨l0, hl0, by
              simp only [schema_validate_main, hreg, htype, hmin, hname]; exact hr0⟩
          | int n => exact ⟨l0, hl0, by
              simp only [schema_validate_main, hreg, htype, hmin, hname]; exact hr0⟩
          | float n => exact ⟨l0, hl0, by
              simp only [schema_validate_main, hreg, htype, hmin, hname]; exact hr0⟩
          | str s2 => exact ⟨l0, hl0, by
              simp only [schema_validate_main, hreg, htype, hmin, hname]; exact hr0⟩
        · exact ⟨l0, hl0, by
            simp only [schema_validate_main, hreg, htype, hmin, hname]; exact hr0⟩
      · exact ⟨l0, hl0, by
          simp only [schema_validate_main, hreg, htype, hmin]; exact hr0⟩
    · exact ⟨l0, hl0, by simp only [schema_validate_main, hreg, htype]; exact hr0⟩

/-- Helper: the full validator, at every fuel, only performs registration writes. -/
theorem schema_validate_shape (rm : String → String → Bool) :
    ∀ fuel : Nat, RegShape (schema_validate rm fuel) := by
  intro fuel
  induction fuel with
  | zero => exact fun o s key refs => ⟨[], by simp, rfl⟩
  | succ fuel ih =>
    intro o schema key refs
    cases schema with
    | obj s =>
      rcases hg : getEntry s "$schema:ref" with _ | r
      · obtain ⟨L, hL, hres⟩ := schema_validate_main_shape rm
          (fun o2 s2 k2 r2 => schema_validate rm fuel o2 s2 k2 r2) ih o s key refs
        exact ⟨L, hL, by simp only [schema_validate, hg]; exact hres⟩
      · rcases ht : truthy r with _ | _
        · obtain ⟨L, hL, hres⟩ := schema_validate_main_shape rm
            (fun o2 s2 k2 r2 => schema_validate rm fuel o2 s2 k2 r2) ih o s key refs
          exact ⟨L, hL, by
            simp only [schema_validate, hg, ht, Bool.false_eq_true, if_false]
            exact hres⟩
        · rcases hh : hashable r with _ | _
          · exact ⟨[], by simp, by
              simp [schema_validate, hg, ht, hh, applyRegs]⟩
          · rcases hrr : getRef refs r with _ | node
            · exact ⟨[], by simp, by
                simp [schema_validate, hg, ht, hh, hrr, applyRegs]⟩
            · obtain ⟨L, hL, hres⟩ := ih o node none refs
              exact ⟨L, hL, by
                simp only [schema_validate, hg, ht, hh, hrr, if_true]
                exact hres⟩
    | null => exact ⟨[], by simp, rfl⟩
    | bool b => exact ⟨[], by simp, rfl⟩
    | int n => exact ⟨[], by simp, rfl⟩
    | float n => exact ⟨[], by simp, rfl⟩
    | str s2 => exact ⟨[], by simp, rfl⟩
    | arr xs => exact ⟨[], by simp, rfl⟩

/-- Claim C9: frame property of `schema_validate`.  The input data and
schema are Lean values and trivially unmodified; the only state the
validator touches is the reference table, and the final table is exactly
the initial one with a sequence of add-or-overwrite writes applied, each
recording an encountered truthy, hashable `$schema:id` marker together
with its node. -/
theorem c9_frame :
    ∀ (rm : String → String → Bool) (fuel : Nat) (o schema : JValue)
      (key : Option String) (refs : Refs),
      ∃ L, (∀ p ∈ L, Registration p)
        ∧ (schema_validate rm fuel o schema key refs).1 = applyRegs refs L :=
  fun rm fuel o schema key refs => schema_validate_shape rm fuel o schema key refs

/-- Helper: key equality is reflexive on hashable values. -/
theorem jbeq_refl_hashable (k : JValue) (h : hashable k = true) : jbeq k k = true := by
  cases k <;> simp_all [jbeq, hashable]

/-- Helper: a table write preserves presence of any key. -/
theorem getRef_setRef_isSome (refs : Refs) (k2 v2 k : JValue)
    (h : (getRef refs k).isSome = true) :
    (getRef (setRef refs k2 v2) k).isSome = true := by
  induction refs with
  | nil => simp [getRef] at h
  | cons p rest ih =>
    obtain ⟨k0, v0⟩ := p
    rcases hb : jbeq k0 k2 with _ | _
    · simp only [setRef, hb, Bool.false_eq_true, if_false]
      rcases hb2 : jbeq k0 k with _ | _
      · simp only [getRef, hb2, Bool.false_eq_true, if_false]
        apply ih
        simp only [getRef, hb2, Bool.false_eq_true, if_false] at h
        exact h
      · simp [getRef, hb2]
    · simp only [setRef, hb, if_true]
      rcases hb2 : jbeq k0 k with _ | _
      · simp only [getRef, hb2, Bool.false_eq_true, if_false]
        simp only [getRef, hb2, Bool.false_eq_true, if_false] at h
        exact h
      · simp [getRef, hb2]

/-- Helper: after writing a hashable key it is present. -/
theorem getRef_setRef_self_isSome (refs : Refs) (k v : JValue)
    (h : hashable k = true) :
    (getRef (setRef refs k v) k).isSome = true := by
  induction refs with
  | nil => simp [setRef, getRef, jbeq_refl_hashable k h]
  | cons p rest ih =>
    obtain ⟨k0, v0⟩ := p
    rcases hb : jbeq k0 k with _ | _
    · simp only [setRef, hb, Bool.false_eq_true, if_false, getRef]
      exact ih
    · simp [setRef, hb, getRef]

/-- Helper: a sequence of writes preserves presence of any key. -/
theorem getRef_applyRegs_isSome (L : List (JValue × JValue)) :
    ∀ (refs : Refs) (k : JValue), (getRef refs k).isSome = true →
      (getRef (applyRegs refs L) k).isSome = true := by
  induction L with
  | nil => exact fun refs k h => h
  | cons p rest ih =>
    intro refs k h
    have : applyRegs refs (p :: rest) = applyRegs (setRef refs p.1 p.2) rest := rfl
    rw [this]
    exact ih _ k (getRef_setRef_isSome refs p.1 p.2 k h)

/-- Helper: with no truthy `$schema:ref`, one step of `schema_validate`
is the post-redirect body. -/
theorem sv_unfold_noref (rm : String → String → Bool) (fuel : Nat) (o : JValue)
    (s : List (String × JValue)) (key : Option String) (refs : Refs)
    (h : truthyGet s "$schema:ref" = false) :
    schema_validate rm (fuel + 1) o (.obj s) key refs
      = schema_validate_main rm
          (fun o2 s2 k2 r2 => schema_validate rm fuel o2 s2 k2 r2) o s key refs := by
  simp only [schema_validate]
  rcases hg : getEntry s "$schema:ref" with _ | r
  · rfl
  · have ht : truthy r = false := by simpa [truthyGet, getD, hg] using h
    simp [ht]

/-- Helper: every key present after the registration step is still present
in the final table, whatever the outcome. -/
theorem main_isSome_preserved (rm : String → String → Bool) (sv : SV)
    (h : RegShape sv) (o : JValue) (s : List (String × JValue))
    (key : Option String) (refs : Refs) (k : JValue)
    (hbase : (getRef (registerId refs s).1 k).isSome = true) :
    (getRef (schema_validate_main rm sv o s key refs).1 k).isSome = true := by
  rcases hreg : registerId refs s with ⟨refs1, e1⟩
  rw [hreg] at hbase
  simp only at hbase
  cases e1 with
  | some e => simpa only [schema_validate_main, hreg] using hbase
  | none =>
    simp only [schema_validate_main, hreg]
    rcases htype : validate_type o s with _ | e
    · rcases hmin : validate_minlength o s with _ | e
      · rcases hname : validate_name rm s key with _ | e
        · cases o with
          | obj okvs =>
            obtain ⟨L, hL, hres⟩ := validate_object_shape sv h okvs s refs1
            simp only
            rw [hres]
            exact getRef_applyRegs_isSome L refs1 k hbase
          | arr xs =>
            obtain ⟨L, hL, hres⟩ := validate_array_elems_shape sv h s xs refs1
            simp only [validate_array]
            rw [hres]
            exact getRef_applyRegs_isSome L refs1 k hbase
          | null => exact hbase
          | bool b => exact hbase
          | int n => exact hbase
          | float n => exact hbase
          | str s2 => exact hbase
        · exact hbase
      · exact hbase
    · exact hbase

/-- Helper: on a scalar value the post-redirect body never writes to the
table beyond the registration step, whatever the outcome. -/
theorem main_scalar_refs (rm : String → String → Bool) (sv : SV) (o : JValue)
    (s : List (String × JValue)) (key : Option String) (refs : Refs)
    (ho : pyScalar o = true) :
    (schema_validate_main rm sv o s key refs).1 = (registerId refs s).1 := by
  rcases hreg : registerId refs s with ⟨refs1, e1⟩
  cases e1 with
  | some e => simp only [schema_validate_main, hreg]
  | none =>
    simp only [schema_validate_main, hreg]
    rcases htype : validate_type o s with _ | e
    · rcases hmin : validate_minlength o s with _ | e
      · rcases hname : validate_name rm s key with _ | e
        · cases o <;> simp_all [pyScalar]
        · rfl
      · rfl
    · rfl

/-- Claim C7 (counterexample): when a nested node re-registers the same id
`R`, the table after validation maps `R` to the most recently visited such
node, not to the outer node the claim designates: here the final table maps
`R` to the inner node, which differs from the outer schema node. -/
theorem c7_counterexample :
    (schema_validate (fun _ _ => true) 3 (.obj [("x", .int 1)])
      (.obj [("$schema:id", .str "R"),
             ("x", .obj [("$schema:id", .str "R"), ("$schema:type", .str "int")])])
      none [])
      = ([(.str "R", .obj [("$schema:id", .str "R"), ("$schema:type", .str "int")])], none)
    ∧ JValue.obj [("$schema:id", .str "R"), ("$schema:type", .str "int")]
      ≠ JValue.obj [("$schema:id", .str "R"),
             ("x", .obj [("$schema:id", .str "R"), ("$schema:type", .str "int")])] := by
  refine ⟨rfl, ?_⟩
  intro h
  injection h with h2
  injection h2 with h3 h4
  injection h4 with h5 h6
  injection h5 with h7 h8
  simp at h7

/-- Claim C7 (amended): on a node carrying a truthy hashable `$schema:id`
and no truthy `$schema:ref`, the registration step runs first (it equals
`setRef` before any check) and survives failure: after the call the id is
always still mapped (possibly overwritten by a later same-id registration),
and for scalar data the final table is exactly the input table with this
one registration applied, whether validation succeeded or failed. -/
theorem c7_amended :
    ∀ (rm : String → String → Bool) (fuel : Nat) (o : JValue)
      (s : List (String × JValue)) (key : Option String) (refs : Refs) (i : JValue),
      getEntry s "$schema:id" = some i → truthy i = true → hashable i = true →
      truthyGet s "$schema:ref" = false →
      registerId refs s = (setRef refs i (.obj s), none)
      ∧ (getRef (schema_validate rm (fuel + 1) o (.obj s) key refs).1 i).isSome = true
      ∧ (pyScalar o = true →
          (schema_validate rm (fuel + 1) o (.obj s) key refs).1 = setRef refs i (.obj s)) := by
  intro rm fuel o s key refs i hid hti hhi href
  have hreg : registerId refs s = (setRef refs i (.obj s), none) := by
    simp [registerId, hid, hti, hhi]
  refine ⟨hreg, ?_, ?_⟩
  · rw [sv_unfold_noref rm fuel o s key refs href]
    apply main_isSome_preserved rm _ (schema_validate_shape rm fuel) o s key refs i
    rw [hreg]
    exact getRef_setRef_self_isSome refs i (.obj s) hhi
  · intro ho
    rw [sv_unfold_noref rm fuel o s key refs href,
      main_scalar_refs rm _ o s key refs ho, hreg]

/-- Helper: without a truthy `$schema:regex` the name check never fires. -/
theorem validate_name_noregex (s : List (String × JValue))
    (h : truthyGet s "$schema:regex" = false) :
    ∀ (rm : String → String → Bool) (key : Option String),
      validate_name rm s key = none := by
  intro rm key
  cases key with
  | none => rfl
  | some k =>
    rcases hg : getEntry s "$schema:regex" with _ | p
    · simp [validate_name, hg]
    · have ht : truthy p = false := by simpa [truthyGet, getD, hg] using h
      simp [validate_name, hg, ht]

/-- Helper: a node with no truthy `$schema:regex` validates identically
under any reaching key. -/
theorem sv_key_irrelevant (rm : String → String → Bool) (fuel : Nat) (o : JValue)
    (nkvs : List (String × JValue)) (key : Option String) (refs : Refs)
    (h : truthyGet nkvs "$schema:regex" = false) :
    schema_validate rm fuel o (.obj nkvs) key refs
      = schema_validate rm fuel o (.obj nkvs) none refs := by
  cases fuel with
  | zero => rfl
  | succ fuel =>
    simp only [schema_validate]
    rcases hg : getEntry nkvs "$schema:ref" with _ | r
    · simp only [schema_validate_main, validate_name_noregex nkvs h]
    · rcases ht : truthy r with _ | _
      · simp only [Bool.false_eq_true, if_false,
          schema_validate_main, validate_name_noregex nkvs h]
      · simp [ht]

/-- Helper: fuel monotonicity of the object-entries scan. -/
theorem validate_object_entries_mono (sv1 sv2 : SV)
    (h : ∀ (o s : JValue) (key : Option String) (refs : Refs),
      (sv1 o s key refs).2 ≠ some Err.recursionError →
      sv2 o s key refs = sv1 o s key refs)
    (s : List (String × JValue)) :
    ∀ (l : List (String × JValue)) (refs : Refs),
      (validate_object_entries sv1 s l refs).2 ≠ some Err.recursionError →
      validate_object_entries sv2 s l refs = validate_object_entries sv1 s l refs := by
  intro l
  induction l with
  | nil => intro refs _; rfl
  | cons p rest ih =>
    intro refs hne
    obtain ⟨k, v⟩ := p
    rcases he : getEntry s (dataKeyToSchemaKey k) with _ | snode
    · rcases hany : truthyGet s "$schema:any" with _ | _
      · simp [validate_object_entries, he, hany]
      · rcases hanode : getEntry s "$schema:any" with _ | anyNode
        · simp [validate_object_entries, he, hany, hanode]
        · rcases hsv : sv1 v anyNode (some k) refs with ⟨refs2, e2⟩
          cases e2 with
          | none =>
            have hs2 : sv2 v anyNode (some k) refs = (refs2, none) :=
              (h v anyNode (some k) refs (by rw [hsv]; simp)).trans hsv
            have hne2 : (validate_object_entries sv1 s rest refs2).2
                ≠ some Err.recursionError := by
              simpa only [validate_object_entries, he, hany, hanode, if_true, hsv]
                using hne
            simp only [validate_object_entries, he, hany, hanode, if_true, hsv, hs2]
            exact ih refs2 hne2
          | some e =>
            have hne2 : ¬ some e = some Err.recursionError := by
              simpa only [validate_object_entries, he, hany, hanode, if_true, hsv]
                using hne
            have hs2 : sv2 v anyNode (some k) refs = (refs2, some e) :=
              (h v anyNode (some k) refs (by rw [hsv]; exact hne2)).trans hsv
            simp only [validate_object_entries, he, hany, hanode, if_true, hsv, hs2]
    · rcases hsv : sv1 v snode none refs with ⟨refs2, e2⟩
      cases e2 with
      | none =>
        have hs2 : sv2 v snode none refs = (refs2, none) :=
          (h v snode none refs (by rw [hsv]; simp)).trans hsv
        have hne2 : (validate_object_entries sv1 s rest refs2).2
            ≠ some Err.recursionError := by
          simpa only [validate_object_entries, he, hsv] using hne
        simp only [validate_object_entries, he, hsv, hs2]
        exact ih refs2 hne2
      | some e =>
        have hne2 : ¬ some e = some Err.recursionError := by
          simpa only [validate_object_entries, he, hsv] using hne
        have hs2 : sv2 v snode none refs = (refs2, some e) :=
          (h v snode none refs (by rw [hsv]; exact hne2)).trans hsv
        simp only [validate_object_entries, he, hsv, hs2]

/-- Helper: fuel monotonicity of the array-elements scan. -/
theorem validate_array_elems_mono (sv1 sv2 : SV)
    (h : ∀ (o s : JValue) (key : Option String) (refs : Refs),
      (sv1 o s key refs).2 ≠ some Err.recursionError →
      sv2 o s key refs = sv1 o s key refs)
    (s : List (String × JValue)) :
    ∀ (l : List JValue) (refs : Refs),
      (validate_array_elems sv1 s l refs).2 ≠ some Err.recursionError →
      validate_array_elems sv2 s l refs = validate_array_elems sv1 s l refs := by
  intro l
  induction l with
  | nil => intro refs _; rfl
  | cons x rest ih =>
    intro refs hne
    rcases he : getEntry s "$schema:elements" with _ | el
    · simp [validate_array_elems, he]
    · rcases hsv : sv1 x el none refs with ⟨refs2, e2⟩
      cases e2 with
      | none =>
        have hs2 : sv2 x el none refs = (refs2, none) :=
          (h x el none refs (by rw [hsv]; simp)).trans hsv
        have hne2 : (validate_array_elems sv1 s rest refs2).2
            ≠ some Err.recursionError := by
          simpa only [validate_array_elems, he, hsv] using hne
        simp only [validate_array_elems, he, hsv, hs2]
        exact ih refs2 hne2
      | some e =>
        have hne2 : ¬ some e = some Err.recursionError := by
          simpa only [validate_array_elems, he, hsv] using hne
        have hs2 : sv2 x el none refs = (refs2, some e) :=
          (h x el none refs (by rw [hsv]; exact hne2)).trans hsv
        simp only [validate_array_elems, he, hsv, hs2]

/-- Helper: fuel monotonicity of the post-redirect body. -/
theorem schema_validate_main_mono (rm : String → String → Bool) (sv1 sv2 : SV)
    (h : ∀ (o s : JValue) (key : Option String) (refs : Refs),
      (sv1 o s key refs).2 ≠ some Err.recursionError →
      sv2 o s key refs = sv1 o s key refs)
    (o : JValue) (s : List (String × JValue)) (key : Option String) (refs : Refs)
    (hne : (schema_validate_main rm sv1 o s key refs).2 ≠ some Err.recursionError) :
    schema_validate_main rm sv2 o s key refs
      = schema_validate_main rm sv1 o s key refs := by
  rcases hreg : registerId refs s with ⟨refs1, e1⟩
  cases e1 with
  | some e => simp [schema_validate_main, hreg]
  | none =>
    rcases htype : validate_type o s with _ | e
    · rcases hmin : validate_minlength o s with _ | e
      · rcases hname : validate_name rm s key with _ | e
        · cases o with
          | obj okvs =>
            have hne2 : (validate_object sv1 okvs s refs1).2
                ≠ some Err.recursionError := by
              simpa only [schema_validate_main, hreg, htype, hmin, hname] using hne
            simp only [schema_validate_main, hreg, htype, hmin, hname]
            rcases hro : validate_object_required okvs s with _ | e
            · have hne3 : (validate_object_entries sv1 s okvs refs1).2
                  ≠ some Err.recursionError := by
                simpa only [validate_object, hro] using hne2
              simp only [validate_object, hro]
              exact validate_object_entries_mono sv1 sv2 h s okvs refs1 hne3
            · simp [validate_object, hro]
          | arr xs =>
            have hne2 : (validate_array_elems sv1 s xs refs1).2
                ≠ some Err.recursionError := by
              simpa only [schema_validate_main, hreg, htype, hmin, hname,
                validate_array] using hne
            simp only [schema_validate_main, hreg, htype, hmin, hname, validate_array]
            exact validate_array_elems_mono sv1 sv2 h s xs refs1 hne2
          | null => simp [schema_validate_main, hreg, htype, hmin, hname]
          | bool b => simp [schema_validate_main, hreg, htype, hmin, hname]
          | int n => simp [schema_validate_main, hreg, htype, hmin, hname]
          | float n => simp [schema_validate_main, hreg, htype, hmin, hname]
          | str s2 => simp [schema_validate_main, hreg, htype, hmin, hname]
        · simp [schema_validate_main, hreg, htype, hmin, hname]
      · simp [schema_validate_main, hreg, htype, hmin]
    · simp [schema_validate_main, hreg, htype]

/-- Helper: fuel monotonicity: a result reached without exhausting the
recursion budget is stable under a larger budget. -/
theorem schema_validate_mono (rm : String → String → Bool) :
    ∀ (fuel : Nat) (o s : JValue) (key : Option String) (refs : Refs),
      (schema_validate rm fuel o s key refs).2 ≠ some Err.recursionError →
      schema_validate rm (fuel + 1) o s key refs
        = schema_validate rm fuel o s key refs := by
  intro fuel
  induction fuel with
  | zero =>
    intro o s key refs hne
    simp [schema_validate] at hne
  | succ fuel ih =>
    intro o schema key refs hne
    cases schema with
    | obj s =>
      rcases hg : getEntry s "$schema:ref" with _ | r
      · have hne2 : (schema_validate_main rm
            (fun o2 s2 k2 r2 => schema_validate rm fuel o2 s2 k2 r2)
            o s key refs).2 ≠ some Err.recursionError := by
          simpa only [schema_validate, hg] using hne
        simp only [schema_validate, hg]
        exact schema_validate_main_mono rm _ _
          (fun o2 s2 k2 r2 hp => ih o2 s2 k2 r2 hp) o s key refs hne2
      · rcases ht : truthy r with _ | _
        · have hne2 : (schema_validate_main rm
              (fun o2 s2 k2 r2 => schema_validate rm fuel o2 s2 k2 r2)
              o s key refs).2 ≠ some Err.recursionError := by
            simpa only [schema_validate, hg, ht, Bool.false_eq_true, if_false] using hne
          simp only [schema_validate, hg, ht, Bool.false_eq_true, if_false]
          exact schema_validate_main_mono rm _ _
            (fun o2 s2 k2 r2 hp => ih o2 s2 k2 r2 hp) o s key refs hne2
        · rcases hh : hashable r with _ | _
          · simp [schema_validate, hg, ht, hh]
          · rcases hrr : getRef refs r with _ | node
            · simp [schema_validate, hg, ht, hh, hrr]
            · have hne2 : (schema_validate rm fuel o node none refs).2
                  ≠ some Err.recursionError := by
                simpa only [schema_validate, hg, ht, hh, hrr, if_true] using hne
              simp only [schema_validate, hg, ht, hh, hrr, if_true]
              exact ih o node none refs hne2
    | null => rfl
    | bool b => rfl
    | int n => rfl
    | float n => rfl
    | str s2 => rfl
    | arr xs => rfl

/-- Claim C3 (counterexample): the `$schema:ref` redirect drops the
reaching key, so ref and verbatim inlining are NOT outcome-identical: with
an all-rejecting matcher, referencing a regex-carrying node from
`$schema:any` succeeds, while inlining the same node verbatim fails with
`KeyPatternMismatch`. -/
theorem c3_counterexample :
    (schema_validate (fun _ _ => false) 6
      (.obj [("x", .int 1), ("b", .int 2)])
      (.obj [("x", .obj [("$schema:id", .str "N"), ("$schema:type", .str "int"),
                         ("$schema:regex", .str "a")]),
             ("$schema:any", .obj [("$schema:ref", .str "N")])]) none []).2
      = none
    ∧ (schema_validate (fun _ _ => false) 6
      (.obj [("x", .int 1), ("b", .int 2)])
      (.obj [("x", .obj [("$schema:id", .str "N"), ("$schema:type", .str "int"),
                         ("$schema:regex", .str "a")]),
             ("$schema:any", .obj [("$schema:id", .str "N"), ("$schema:type", .str "int"),
                         ("$schema:regex", .str "a")])]) none []).2
      = some (.keyPatternMismatch "b" "a") := ⟨rfl, rfl⟩

/-- Claim C3 (amended): validating against `{"$schema:ref": R}` with the
table mapping `R` to a previously visited node `N` behaves exactly like
validating against `N` inlined verbatim at the reference site, PROVIDED the
redirect's dropping of the reaching key is immaterial (here: `N` carries no
truthy `$schema:regex`) and the recursion budget is not exhausted. -/
theorem c3_amended :
    ∀ (rm : String → String → Bool) (fuel : Nat) (o : JValue) (key : Option String)
      (refs : Refs) (R : String) (nkvs : List (String × JValue)),
      R ≠ "" →
      getRef refs (.str R) = some (.obj nkvs) →
      truthyGet nkvs "$schema:regex" = false →
      (schema_validate rm fuel o (.obj nkvs) none refs).2 ≠ some Err.recursionError →
      schema_validate rm (fuel + 1) o (.obj [("$schema:ref", .str R)]) key refs
        = schema_validate rm (fuel + 1) o (.obj nkvs) key refs := by
  intro rm fuel o key refs R nkvs hR href hreg hne
  have hred : schema_validate rm (fuel + 1) o (.obj [("$schema:ref", .str R)]) key refs
      = schema_validate rm fuel o (.obj nkvs) none refs := by
    simp only [schema_validate, getEntry]
    simp [truthy, hR, hashable, href]
  rw [hred, sv_key_irrelevant rm (fuel + 1) o nkvs key refs hreg,
    schema_validate_mono rm fuel o (.obj nkvs) none refs hne]

/-- Claim C3 (witness): the amended statement at a registered `int` node
referenced under key `k`. -/
theorem c3_witness :
    ("R" : String) ≠ ""
    ∧ getRef [(JValue.str "R", JValue.obj [("$schema:type", JValue.str "int")])]
        (.str "R") = some (.obj [("$schema:type", JValue.str "int")])
    ∧ truthyGet [("$schema:type", JValue.str "int")] "$schema:regex" = false
    ∧ (schema_validate (fun _ _ => true) 1 (.int 3)
        (.obj [("$schema:type", JValue.str "int")]) none
        [(JValue.str "R", JValue.obj [("$schema:type", JValue.str "int")])]).2
        ≠ some Err.recursionError
    ∧ schema_validate (fun _ _ => true) 2 (.int 3)
        (.obj [("$schema:ref", .str "R")]) (some "k")
        [(JValue.str "R", JValue.obj [("$schema:type", JValue.str "int")])]
      = schema_validate (fun _ _ => true) 2 (.int 3)
        (.obj [("$schema:type", JValue.str "int")]) (some "k")
        [(JValue.str "R", JValue.obj [("$schema:type", JValue.str "int")])] :=
  ⟨by decide, rfl, rfl, by decide,
    c3_amended (fun _ _ => true) 1 (.int 3) (some "k")
      [(JValue.str "R", JValue.obj [("$schema:type", JValue.str "int")])]
      "R" [("$schema:type", JValue.str "int")]
      (by decide) rfl rfl (by decide)⟩

/-- Claim C7 (witness): the amended statement on a node whose type check
fails (`5` against type `string`): registration survives the failure. -/
theorem c7_witness :
    getEntry [("$schema:id", JValue.str "R"), ("$schema:type", JValue.str "string")]
      "$schema:id" = some (.str "R")
    ∧ truthy (.str "R") = true
    ∧ hashable (.str "R") = true
    ∧ truthyGet [("$schema:id", JValue.str "R"), ("$schema:type", JValue.str "string")]
        "$schema:ref" = false
    ∧ (schema_validate (fun _ _ => true) 1 (.int 5)
        (.obj [("$schema:id", JValue.str "R"), ("$schema:type", JValue.str "string")])
        none []).2 = some .typeMismatch
    ∧ registerId [] [("$schema:id", JValue.str "R"), ("$schema:type", JValue.str "string")]
      = (setRef [] (.str "R")
          (.obj [("$schema:id", JValue.str "R"), ("$schema:type", JValue.str "string")]), none)
    ∧ (getRef (schema_validate (fun _ _ => true) 1 (.int 5)
        (.obj [("$schema:id", JValue.str "R"), ("$schema:type", JValue.str "string")])
        none []).1 (.str "R")).isSome = true
    ∧ (schema_validate (fun _ _ => true) 1 (.int 5)
        (.obj [("$schema:id", JValue.str "R"), ("$schema:type", JValue.str "string")])
        none []).1 = setRef [] (.str "R")
          (.obj [("$schema:id", JValue.str "R"), ("$schema:type", JValue.str "string")]) :=
  ⟨rfl, rfl, rfl, rfl, rfl,
    (c7_amended (fun _ _ => true) 0 (.int 5)
      [("$schema:id", JValue.str "R"), ("$schema:type", JValue.str "string")] none []
      (.str "R") rfl rfl rfl rfl).1,
    (c7_amended (fun _ _ => true) 0 (.int 5)
      [("$schema:id", JValue.str "R"), ("$schema:type", JValue.str "string")] none []
      (.str "R") rfl rfl rfl rfl).2.1,
    (c7_amended (fun _ _ => true) 0 (.int 5)
      [("$schema:id", JValue.str "R"), ("$schema:type", JValue.str "string")] none []
      (.str "R") rfl rfl rfl rfl).2.2 rfl⟩
